import Mathlib

/-!
Shallow embedding of the windmill-vane demo's geometry and animation core.

The Rust source (src/main.rs) computes all geometry in `f32`; here `f32`
is idealised as `ℝ` (exact real arithmetic), the standard idealisation for
specifications of floating-point geometry code.  Every definition below is
translated directly from the corresponding Rust function; names follow the
source.
-/

noncomputable section

namespace Windmill

open Real

/-- A 3-component vector, the `[f32; 3]` of the source. -/
@[ext]
structure Vec3 where
  x : ℝ
  y : ℝ
  z : ℝ

instance : Inhabited Vec3 := ⟨⟨0, 0, 0⟩⟩

/-- Source `scale`: componentwise scaling. -/
def scale (a : Vec3) (k : ℝ) : Vec3 := ⟨a.x * k, a.y * k, a.z * k⟩

/-- Source `negate`. -/
def negate (a : Vec3) : Vec3 := scale a (-1)

/-- Source `add`. -/
def add (a b : Vec3) : Vec3 := ⟨a.x + b.x, a.y + b.y, a.z + b.z⟩

/-- Source `subtract`. -/
def subtract (a b : Vec3) : Vec3 := add a (negate b)

/-- Source `midpoint`. -/
def midpoint (a b : Vec3) : Vec3 := scale (add a b) 0.5

/-- Source `length`: Euclidean norm. -/
def length (a : Vec3) : ℝ := Real.sqrt (a.x * a.x + a.y * a.y + a.z * a.z)

/-- Source `normalize` (the value it returns when the assert passes):
`scale(a, 1.0 / length(a))`. -/
def normalize (a : Vec3) : Vec3 := scale a (1 / length a)

/-- Source `normalize`'s assertion `assert!(!inverse_length.is_infinite())`:
the call aborts exactly when the inverse length `1.0 / length(a)` is not a
finite number.  In the real idealisation of `f32`, "`1 / length a` is not a
finite real" is rendered as: no real number multiplies with `length a` to
give `1`. -/
def normalizeAborts (a : Vec3) : Prop := ¬ ∃ r : ℝ, r * length a = 1

/-- Source `mix_by_angle`: the point `angle` radians around the
origin-centered ellipse with semi-axes `i` and `j`. -/
def mix_by_angle (i j : Vec3) (angle : ℝ) : Vec3 :=
  add (scale i (Real.cos angle)) (scale j (Real.sin angle))

/-- Source `unit_at_angle`: XY-plane unit vector at polar angle `angle`. -/
def unit_at_angle (angle : ℝ) : Vec3 := ⟨Real.cos angle, Real.sin angle, 0⟩

/-- Dot product, used to state the projected-signed-area invariant. -/
def dot (a b : Vec3) : ℝ := a.x * b.x + a.y * b.y + a.z * b.z

/-- Cross product, used to state the projected-signed-area invariant. -/
def cross (a b : Vec3) : Vec3 :=
  ⟨a.y * b.z - a.z * b.y, a.z * b.x - a.x * b.z, a.x * b.y - a.y * b.x⟩

/-- Signed area of the triangle `(p0, p1, p2)` projected along the unit
normal `n`, with the spec's orientation convention: the area is POSITIVE
when the three points appear in CLOCKWISE order to a viewer on the side
`n` points toward ("clockwise-from-outside").  The right-handed
(counter-clockwise-positive) shoelace form is `dot (cross (p1-p0) (p2-p0)) n / 2`;
clockwise-positive is its negation, i.e. the two edge vectors swapped. -/
def signedAreaFromOutside (p0 p1 p2 n : Vec3) : ℝ :=
  dot (cross (subtract p2 p0) (subtract p1 p0)) n / 2

/-- The `Vane` struct of the source. -/
structure Vane where
  tip : Vec3
  base_midpt : Vec3
  base_radius : ℝ
  base_unit_i : Vec3
  base_unit_j : Vec3
  spin : ℝ

/-- The `Face` enum of the source. -/
inductive Face where
  | Front
  | Back

/-- A 2-component vector, the `[f32; 2]` texture coordinates. -/
@[ext]
structure Vec2 where
  u : ℝ
  v : ℝ

instance : Inhabited Vec2 := ⟨⟨0, 0⟩⟩

/-- Source `Vane::corners`: positions of the three corners of the given
face, `[tip, corner1, corner2]` for `Front` and `[tip, corner2, corner1]`
for `Back`. -/
def Vane.corners (v : Vane) (face : Face) : List Vec3 :=
  let unit_towards_corner := mix_by_angle v.base_unit_i v.base_unit_j v.spin
  let base_midpt_to_corner := scale unit_towards_corner v.base_radius
  let corner1 := add v.base_midpt base_midpt_to_corner
  let corner2 := subtract v.base_midpt base_midpt_to_corner
  match face with
  | Face.Front => [v.tip, corner1, corner2]
  | Face.Back => [v.tip, corner2, corner1]

/-- Source `Vane::normal`: unit normal of the given face. -/
def Vane.normal (v : Vane) (face : Face) : Vec3 :=
  let n := mix_by_angle v.base_unit_i v.base_unit_j (v.spin + π / 2)
  match face with
  | Face.Front => n
  | Face.Back => negate n

/-- Source `Vane::texture_corners`: fixed per-face UV triples. -/
def Vane.texture_corners (_v : Vane) (face : Face) : List Vec2 :=
  match face with
  | Face.Front => [⟨0.50, 0.05⟩, ⟨0.95, 0.95⟩, ⟨0.05, 0.95⟩]
  | Face.Back => [⟨0.50, 0.05⟩, ⟨0.05, 0.95⟩, ⟨0.95, 0.95⟩]

/-- Source `vane` (the factory nested in `main`): builds a `Vane` from a
placement point and an angular offset. -/
def vane (pt : Vec3) (angle : ℝ) : Vane :=
  let inner_radius : ℝ := 0.25
  let outer_radius : ℝ := 0.5
  let unit_tip := unit_at_angle angle
  let unit1 := unit_at_angle (angle + π * 7 / 6)
  let unit2 := unit_at_angle (angle + π * 5 / 6)
  let tip := scale unit_tip inner_radius
  let corner1 := scale unit1 outer_radius
  let corner2 := scale unit2 outer_radius
  let base_midpt := midpoint corner1 corner2
  let base_midpt_to_corner1 := subtract corner1 base_midpt
  { tip := add pt tip
    base_midpt := add pt base_midpt
    base_radius := length base_midpt_to_corner1
    base_unit_i := normalize base_midpt_to_corner1
    base_unit_j := ⟨0, 0, 1⟩
    spin := 0 }

/-- Overwriting the `spin` field, as the per-frame loop does
(`vane.spin = ...`). -/
def setSpin (v : Vane) (θ : ℝ) : Vane := { v with spin := θ }

/-- The initial scene of the source: two windmills of three vanes each. -/
def vanes0 : List Vane :=
  [ vane ⟨0, 0, 0⟩ 0,
    vane ⟨0, 0, 0⟩ (π * 2 / 3),
    vane ⟨0, 0, 0⟩ (π * 4 / 3),
    vane ⟨1, 1, -2.5⟩ 0,
    vane ⟨1, 1, -2.5⟩ (π * 2 / 3),
    vane ⟨1, 1, -2.5⟩ (π * 4 / 3) ]

/-- Body of the per-frame spin-update loop
`for (i, vane) in vanes.iter_mut().enumerate() { ... }`, with `k` the
index of the first vane of the remaining list. -/
def updateSpinsAux (spin : ℝ) (k : ℕ) : List Vane → List Vane
  | [] => []
  | v :: rest =>
      { v with spin := spin * (if 3 ≤ k then 0.5 else 1) + k } ::
        updateSpinsAux spin (k + 1) rest

/-- The per-frame spin update of the source: `spin = seconds * 0.125 * 2.0 * PI`,
then each vane at index `i` gets `spin * (if i >= 3 then 0.5 else 1.0) + i`. -/
def updateSpins (vanes : List Vane) (seconds : ℝ) : List Vane :=
  updateSpinsAux (seconds * 0.125 * 2 * π) 0 vanes

/-- The `Vertex` struct of the source. -/
structure Vertex where
  position : Vec3
  normal : Vec3
  texture : Vec2

/-- The three vertices appended for one vane and one face:
`vane.corners(face).iter().zip(vane.texture_corners(face).iter()).map(...)`,
all sharing `vane.normal(face)`. -/
def faceVertices (v : Vane) (face : Face) : List Vertex :=
  List.zipWith (fun p t => { position := p, normal := v.normal face, texture := t })
    (v.corners face) (v.texture_corners face)

/-- The per-frame vertex list of the source: one front-face pass over the
vanes in order, then one back-face pass. -/
def assembleVertices (vanes : List Vane) : List Vertex :=
  (vanes.flatMap fun v => faceVertices v Face.Front) ++
    (vanes.flatMap fun v => faceVertices v Face.Back)

/-- The border index list of the source:
`(0..6).flat_map(|n| { let i = n * 3; vec![i, i+1, i+1, i+2, i+2, i] })`. -/
def borderIndices : List ℕ :=
  (List.range 6).flatMap fun n =>
    let i := n * 3
    [i, i + 1, i + 1, i + 2, i + 2, i]

/- ------------------------------------------------------------------ -/
/- Helper lemmas                                                       -/
/- ------------------------------------------------------------------ -/

lemma cos_add_7pi6 (a : ℝ) :
    Real.cos (a + π * 7 / 6) = -(Real.sqrt 3 / 2) * Real.cos a + Real.sin a / 2 := by
  have h : a + π * 7 / 6 = a + π + π / 6 := by ring
  rw [h, Real.cos_add, Real.cos_add, Real.sin_add, Real.cos_pi, Real.sin_pi,
    Real.cos_pi_div_six, Real.sin_pi_div_six]
  ring

lemma sin_add_7pi6 (a : ℝ) :
    Real.sin (a + π * 7 / 6) = -(Real.sqrt 3 / 2) * Real.sin a - Real.cos a / 2 := by
  have h : a + π * 7 / 6 = a + π + π / 6 := by ring
  rw [h, Real.sin_add, Real.sin_add, Real.cos_add, Real.cos_pi, Real.sin_pi,
    Real.cos_pi_div_six, Real.sin_pi_div_six]
  ring

lemma cos_add_5pi6 (a : ℝ) :
    Real.cos (a + π * 5 / 6) = -(Real.sqrt 3 / 2) * Real.cos a - Real.sin a / 2 := by
  have h : a + π * 5 / 6 = a + π - π / 6 := by ring
  rw [h, Real.cos_sub, Real.cos_add, Real.sin_add, Real.cos_pi, Real.sin_pi,
    Real.cos_pi_div_six, Real.sin_pi_div_six]
  ring

lemma sin_add_5pi6 (a : ℝ) :
    Real.sin (a + π * 5 / 6) = -(Real.sqrt 3 / 2) * Real.sin a + Real.cos a / 2 := by
  have h : a + π * 5 / 6 = a + π - π / 6 := by
    ring
  rw [h, Real.sin_sub, Real.sin_add, Real.cos_add, Real.cos_pi, Real.sin_pi,
    Real.cos_pi_div_six, Real.sin_pi_div_six]
  ring

/-- The factory's `base_midpt_to_corner1` in closed form. -/
lemma bm2c1_eval (angle : ℝ) :
    subtract (scale (unit_at_angle (angle + π * 7 / 6)) 0.5)
        (midpoint (scale (unit_at_angle (angle + π * 7 / 6)) 0.5)
          (scale (unit_at_angle (angle + π * 5 / 6)) 0.5)) =
      ⟨Real.sin angle / 4, -Real.cos angle / 4, 0⟩ := by
  simp only [unit_at_angle, scale, midpoint, add, subtract, negate, Vec3.mk.injEq]
  simp only [cos_add_7pi6, sin_add_7pi6, cos_add_5pi6, sin_add_5pi6]
  refine ⟨by ring, by ring, by ring⟩

lemma length_bm2c1 (a : ℝ) :
    length ⟨Real.sin a / 4, -Real.cos a / 4, 0⟩ = 1 / 4 := by
  unfold length
  have h : Real.sin a / 4 * (Real.sin a / 4) + -Real.cos a / 4 * (-Real.cos a / 4) +
      (0 : ℝ) * 0 = (1 / 4 : ℝ) ^ 2 := by
    linear_combination (1 / 16 : ℝ) * Real.sin_sq_add_cos_sq a
  rw [h, Real.sqrt_sq (by norm_num)]

lemma normalize_bm2c1 (a : ℝ) :
    normalize ⟨Real.sin a / 4, -Real.cos a / 4, 0⟩ = ⟨Real.sin a, -Real.cos a, 0⟩ := by
  unfold normalize
  rw [length_bm2c1]
  simp only [scale, Vec3.mk.injEq]
  norm_num

lemma vane_tip (pt : Vec3) (angle : ℝ) :
    (vane pt angle).tip =
      ⟨pt.x + Real.cos angle / 4, pt.y + Real.sin angle / 4, pt.z⟩ := by
  simp only [vane, unit_at_angle, scale, add, Vec3.mk.injEq]
  refine ⟨by ring, by ring, by ring⟩

lemma vane_base_midpt (pt : Vec3) (angle : ℝ) :
    (vane pt angle).base_midpt =
      ⟨pt.x - Real.sqrt 3 * Real.cos angle / 4,
       pt.y - Real.sqrt 3 * Real.sin angle / 4, pt.z⟩ := by
  simp only [vane, unit_at_angle, scale, midpoint, add, Vec3.mk.injEq]
  simp only [cos_add_7pi6, sin_add_7pi6, cos_add_5pi6, sin_add_5pi6]
  refine ⟨by ring, by ring, by ring⟩

lemma vane_base_radius (pt : Vec3) (angle : ℝ) :
    (vane pt angle).base_radius = 1 / 4 := by
  simp only [vane]
  rw [bm2c1_eval, length_bm2c1]

lemma vane_base_unit_i (pt : Vec3) (angle : ℝ) :
    (vane pt angle).base_unit_i = ⟨Real.sin angle, -Real.cos angle, 0⟩ := by
  simp only [vane]
  rw [bm2c1_eval, normalize_bm2c1]

lemma vane_base_unit_j (pt : Vec3) (angle : ℝ) :
    (vane pt angle).base_unit_j = ⟨0, 0, 1⟩ := rfl

lemma vane_spin (pt : Vec3) (angle : ℝ) : (vane pt angle).spin = 0 := rfl

lemma length_scale (a : Vec3) (k : ℝ) : length (scale a k) = |k| * length a := by
  unfold length scale
  have h : a.x * k * (a.x * k) + a.y * k * (a.y * k) + a.z * k * (a.z * k) =
      k ^ 2 * (a.x * a.x + a.y * a.y + a.z * a.z) := by ring
  rw [h, Real.sqrt_mul (sq_nonneg k), Real.sqrt_sq_eq_abs]

lemma length_nonneg (a : Vec3) : 0 ≤ length a := Real.sqrt_nonneg _

/-- C6's content as a helper-free fact is proved directly in the claim
theorem; this lemma is the unit-length result of `normalize`. -/
lemma length_normalize (a : Vec3) (h : length a ≠ 0) : length (normalize a) = 1 := by
  unfold normalize
  rw [length_scale]
  have hpos : 0 < length a := lt_of_le_of_ne (length_nonneg a) (Ne.symm h)
  rw [abs_of_pos (by positivity)]
  field_simp

lemma updateSpinsAux_getElem (s : ℝ) (k i : ℕ) (l : List Vane) :
    (updateSpinsAux s k l)[i]? =
      (l[i]?).map fun v =>
        { v with spin := s * (if 3 ≤ k + i then 0.5 else 1) + ((k + i : ℕ) : ℝ) } := by
  induction l generalizing k i with
  | nil => simp [updateSpinsAux]
  | cons v rest ih =>
      cases i with
      | zero => simp [updateSpinsAux]
      | succ n =>
          simp only [updateSpinsAux, List.getElem?_cons_succ, ih]
          have h : k + 1 + n = k + (n + 1) := by omega
          rw [h]

lemma updateSpinsAux_length (s : ℝ) (k : ℕ) (l : List Vane) :
    (updateSpinsAux s k l).length = l.length := by
  induction l generalizing k with
  | nil => rfl
  | cons v rest ih => simp [updateSpinsAux, ih]

lemma faceVertices_length (v : Vane) (f : Face) : (faceVertices v f).length = 3 := by
  cases f <;> rfl

lemma flatMap_faceVertices_length (l : List Vane) (f : Face) :
    (l.flatMap fun v => faceVertices v f).length = 3 * l.length := by
  induction l with
  | nil => rfl
  | cons v rest ih =>
      rw [List.flatMap_cons, List.length_append, faceVertices_length, ih,
        List.length_cons]
      ring

lemma flatMap_faceVertices_getElem (l : List Vane) (f : Face) (i k : ℕ) (hk : k < 3) :
    (l.flatMap fun v => faceVertices v f)[3 * i + k]? =
      (l[i]?).bind fun v => (faceVertices v f)[k]? := by
  induction l generalizing i with
  | nil => simp
  | cons v rest ih =>
      cases i with
      | zero =>
          rw [List.flatMap_cons]
          rw [List.getElem?_append_left (by rw [faceVertices_length]; omega)]
          simp
      | succ n =>
          rw [List.flatMap_cons,
            List.getElem?_append_right (by rw [faceVertices_length]; omega)]
          rw [faceVertices_length,
            show 3 * (n + 1) + k - 3 = 3 * n + k from by omega, ih]
          simp

lemma faceVertices_getElem (v : Vane) (f : Face) (k : ℕ) (hk : k < 3) :
    (faceVertices v f)[k]? =
      some { position := (v.corners f).getD k default,
             normal := v.normal f,
             texture := (v.texture_corners f).getD k default } := by
  cases f <;> interval_cases k <;> rfl

/- ------------------------------------------------------------------ -/
/- Claim theorems                                                      -/
/- ------------------------------------------------------------------ -/

/-- C3: after the per-frame spin update with elapsed time `t`, the vane at
index `i` has spin `(t * 0.125 * 2π) * rate + i`, with `rate = 0.5` for
`i ≥ 3` and `1.0` otherwise; in particular at `t = 0` the spin of vane `i`
is exactly `i`. -/
theorem updateSpins_formula (vanes : List Vane) (t : ℝ) (i : ℕ) :
    (updateSpins vanes t)[i]? =
      (vanes[i]?).map (fun v =>
        { v with spin := t * 0.125 * (2 * π) * (if 3 ≤ i then 0.5 else 1) + (i : ℝ) }) ∧
    ((updateSpins vanes 0)[i]?).map Vane.spin = (vanes[i]?).map (fun _ => (i : ℝ)) := by
  constructor
  · rw [updateSpins, updateSpinsAux_getElem]
    have h : (fun v : Vane =>
          { v with spin := t * 0.125 * 2 * π * (if 3 ≤ 0 + i then 0.5 else 1) +
              ((0 + i : ℕ) : ℝ) }) =
        fun v : Vane =>
          { v with spin := t * 0.125 * (2 * π) * (if 3 ≤ i then 0.5 else 1) + (i : ℝ) } := by
      funext v
      simp only [Nat.zero_add, Vane.mk.injEq, and_true, true_and]
      ring
    rw [h]
  · rw [updateSpins, updateSpinsAux_getElem]
    cases vanes[i]? with
    | none => rfl
    | some v =>
        simp only [Nat.zero_add]
        show some ((0 : ℝ) * 0.125 * 2 * π * (if 3 ≤ i then 0.5 else 1) + (i : ℝ)) =
          some ((i : ℝ))
        exact congrArg some (by ring)

/-- C9: the per-frame update mutates only `spin`: it preserves the list
length and, for every index, the fields `tip`, `base_midpt`,
`base_radius`, `base_unit_i` and `base_unit_j`. -/
theorem updateSpins_mutates_only_spin (vanes : List Vane) (t : ℝ) (i : ℕ) :
    (updateSpins vanes t).length = vanes.length ∧
    ((updateSpins vanes t)[i]?).map Vane.tip = (vanes[i]?).map Vane.tip ∧
    ((updateSpins vanes t)[i]?).map Vane.base_midpt = (vanes[i]?).map Vane.base_midpt ∧
    ((updateSpins vanes t)[i]?).map Vane.base_radius = (vanes[i]?).map Vane.base_radius ∧
    ((updateSpins vanes t)[i]?).map Vane.base_unit_i = (vanes[i]?).map Vane.base_unit_i ∧
    ((updateSpins vanes t)[i]?).map Vane.base_unit_j = (vanes[i]?).map Vane.base_unit_j := by
  refine ⟨updateSpinsAux_length _ _ _, ?_, ?_, ?_, ?_, ?_⟩ <;>
    · rw [updateSpins, updateSpinsAux_getElem]
      cases vanes[i]? <;> rfl

/-- C4: the assembled vertex list has exactly `6 * vane_count` entries and
is a front block followed by a back block: entry `3i + k` (for `i` a vane
index, `k < 3`) is corner `k` of vane `i`'s front face with the shared
front normal and front texture corner `k`; entry `3 * vane_count + 3i + k`
is the same for the back face. -/
theorem assembleVertices_layout (vanes : List Vane) (i k : ℕ)
    (hi : i < vanes.length) (hk : k < 3) :
    (assembleVertices vanes).length = 6 * vanes.length ∧
    (assembleVertices vanes)[3 * i + k]? =
      (vanes[i]?).map (fun v =>
        { position := (v.corners Face.Front).getD k default,
          normal := v.normal Face.Front,
          texture := (v.texture_corners Face.Front).getD k default }) ∧
    (assembleVertices vanes)[3 * vanes.length + (3 * i + k)]? =
      (vanes[i]?).map (fun v =>
        { position := (v.corners Face.Back).getD k default,
          normal := v.normal Face.Back,
          texture := (v.texture_corners Face.Back).getD k default }) := by
  refine ⟨?_, ?_, ?_⟩
  · rw [assembleVertices, List.length_append, flatMap_faceVertices_length,
      flatMap_faceVertices_length]
    ring
  · rw [assembleVertices,
      List.getElem?_append_left (by rw [flatMap_faceVertices_length]; omega),
      flatMap_faceVertices_getElem _ _ _ _ hk]
    cases h : vanes[i]? with
    | none => rfl
    | some v => simp [faceVertices_getElem v Face.Front k hk]
  · rw [assembleVertices,
      List.getElem?_append_right (by rw [flatMap_faceVertices_length]; omega),
      flatMap_faceVertices_length,
      show 3 * vanes.length + (3 * i + k) - 3 * vanes.length = 3 * i + k from by omega,
      flatMap_faceVertices_getElem _ _ _ _ hk]
    cases h : vanes[i]? with
    | none => rfl
    | some v => simp [faceVertices_getElem v Face.Back k hk]

/-- C4 witness: on the concrete 6-vane scene with `i = 0`, `k = 0`, the
layout statement holds. -/
theorem assembleVertices_layout_witness :
    0 < vanes0.length ∧ (0 : ℕ) < 3 ∧
    ((assembleVertices vanes0).length = 6 * vanes0.length ∧
     (assembleVertices vanes0)[3 * 0 + 0]? =
       (vanes0[0]?).map (fun v =>
         { position := (v.corners Face.Front).getD 0 default,
           normal := v.normal Face.Front,
           texture := (v.texture_corners Face.Front).getD 0 default }) ∧
     (assembleVertices vanes0)[3 * vanes0.length + (3 * 0 + 0)]? =
       (vanes0[0]?).map (fun v =>
         { position := (v.corners Face.Back).getD 0 default,
           normal := v.normal Face.Back,
           texture := (v.texture_corners Face.Back).getD 0 default })) :=
  ⟨by norm_num [vanes0], by norm_num,
    assembleVertices_layout vanes0 0 0 (by norm_num [vanes0]) (by norm_num)⟩

/-- C10: the scene is fixed at exactly 6 vanes, the border index generator
iterates exactly 6 vanes (6 · 6 entries), and for every frame time `t` the
border vertex slice — the first 18 vertices of the assembled list — is
exactly the front block. -/
theorem scene_border_hardcode :
    vanes0.length = 6 ∧
    borderIndices.length = 6 * 6 ∧
    ∀ t : ℝ, (assembleVertices (updateSpins vanes0 t)).take 18 =
      (updateSpins vanes0 t).flatMap fun v => faceVertices v Face.Front := by
  refine ⟨rfl, by decide, ?_⟩
  intro t
  have hlen6 : (updateSpins vanes0 t).length = 6 := updateSpinsAux_length _ _ _
  have hfl : ((updateSpins vanes0 t).flatMap fun v => faceVertices v Face.Front).length
      = 18 := by
    rw [flatMap_faceVertices_length, hlen6]
  rw [assembleVertices, ← hfl, List.take_left]

/-- C2: `normalize(v)` aborts (assert failure) if and only if
`length(v) = 0`; for every `v` with `length(v) ≠ 0` it returns
`scale(v, 1 / length(v))`, a unit vector. -/
theorem normalize_aborts_iff_and_unit (v : Vec3) :
    (normalizeAborts v ↔ length v = 0) ∧
      (length v ≠ 0 →
        normalize v = scale v (1 / length v) ∧ length (normalize v) = 1) := by
  constructor
  · constructor
    · intro h
      by_contra hne
      exact h ⟨(length v)⁻¹, inv_mul_cancel₀ hne⟩
    · intro h0 ⟨r, hr⟩
      rw [h0, mul_zero] at hr
      exact one_ne_zero hr.symm
  · intro h
    exact ⟨rfl, length_normalize v h⟩

/-- C2 witness: at `v = (3, 4, 0)` the length is `5 ≠ 0` and the
normalized vector has length `1`. -/
theorem normalize_aborts_iff_and_unit_witness :
    length ⟨3, 4, 0⟩ ≠ 0 ∧ length (normalize ⟨3, 4, 0⟩) = 1 := by
  have h5 : length ⟨3, 4, 0⟩ = 5 := by
    unfold length
    norm_num
    rw [show (25 : ℝ) = 5 ^ 2 by norm_num, Real.sqrt_sq (by norm_num)]
  have hne : length (⟨3, 4, 0⟩ : Vec3) ≠ 0 := by rw [h5]; norm_num
  exact ⟨hne, ((normalize_aborts_iff_and_unit ⟨3, 4, 0⟩).2 hne).2⟩

/-- C1: for every factory-built vane (any placement point, any angular
offset) and every spin value θ, the three corners returned by
`corners(vane, Front)` are in clockwise order viewed from outside the
front face: the signed area of the triangle `[tip, corner1, corner2]`
projected along `normal(vane, Front)` is positive (it equals the constant
`(√3 + 1) / 16`). -/
theorem corners_front_clockwise (pt : Vec3) (angle θ : ℝ) :
    0 < signedAreaFromOutside
        (((setSpin (vane pt angle) θ).corners Face.Front).getD 0 default)
        (((setSpin (vane pt angle) θ).corners Face.Front).getD 1 default)
        (((setSpin (vane pt angle) θ).corners Face.Front).getD 2 default)
        ((setSpin (vane pt angle) θ).normal Face.Front) := by
  have harea :
      signedAreaFromOutside
          (((setSpin (vane pt angle) θ).corners Face.Front).getD 0 default)
          (((setSpin (vane pt angle) θ).corners Face.Front).getD 1 default)
          (((setSpin (vane pt angle) θ).corners Face.Front).getD 2 default)
          ((setSpin (vane pt angle) θ).normal Face.Front) =
        (Real.sqrt 3 + 1) / 16 := by
    simp only [setSpin, Vane.corners, Vane.normal, mix_by_angle, scale, add, subtract,
      negate, vane_tip, vane_base_midpt, vane_base_radius, vane_base_unit_i,
      vane_base_unit_j, Real.cos_add_pi_div_two, Real.sin_add_pi_div_two]
    simp [signedAreaFromOutside, dot, cross, subtract, negate, add, scale]
    linear_combination
      ((Real.sqrt 3 + 1) * (Real.sin θ ^ 2 + Real.cos θ ^ 2) / 16) *
          Real.sin_sq_add_cos_sq angle +
        ((Real.sqrt 3 + 1) / 16) * Real.sin_sq_add_cos_sq θ
  rw [harea]
  positivity

/-- C7: the vane built at center `(0,0,0)` with angle `0` has tip exactly
`(0.25, 0, 0)`, first base corner exactly `(-√3/4, -0.25, 0)`, base
midpoint exactly `(-√3/4, 0, 0)` and base radius exactly `0.25`, where
`-√3/4` is within `0.001` of the spec's `-0.433`. -/
theorem vane_example_geometry :
    (vane ⟨0, 0, 0⟩ 0).tip = ⟨0.25, 0, 0⟩ ∧
    ((vane ⟨0, 0, 0⟩ 0).corners Face.Front).getD 1 default =
      ⟨-(Real.sqrt 3 / 4), -0.25, 0⟩ ∧
    (vane ⟨0, 0, 0⟩ 0).base_midpt = ⟨-(Real.sqrt 3 / 4), 0, 0⟩ ∧
    (vane ⟨0, 0, 0⟩ 0).base_radius = 0.25 ∧
    |(-(Real.sqrt 3 / 4)) - (-0.433)| < 0.001 := by
  have hub : Real.sqrt 3 < 1.736 := by
    rw [show (1.736 : ℝ) = Real.sqrt (1.736 ^ 2) from (Real.sqrt_sq (by norm_num)).symm]
    exact Real.sqrt_lt_sqrt (by norm_num) (by norm_num)
  have hlb : (1.728 : ℝ) < Real.sqrt 3 := by
    rw [show (1.728 : ℝ) = Real.sqrt (1.728 ^ 2) from (Real.sqrt_sq (by norm_num)).symm]
    exact Real.sqrt_lt_sqrt (by norm_num) (by norm_num)
  refine ⟨?_, ?_, ?_, ?_, ?_⟩
  · rw [vane_tip]
    simp only [Real.cos_zero, Real.sin_zero, Vec3.mk.injEq]
    norm_num
  · simp only [Vane.corners, mix_by_angle, scale, add, subtract, negate,
      vane_base_midpt, vane_base_radius, vane_base_unit_i, vane_base_unit_j, vane_spin,
      Real.cos_zero, Real.sin_zero]
    simp [Vec3.mk.injEq]
    norm_num
  · rw [vane_base_midpt]
    simp only [Real.cos_zero, Real.sin_zero, Vec3.mk.injEq]
    norm_num
  · rw [vane_base_radius]; norm_num
  · rw [abs_lt]
    constructor <;> [linarith; linarith]

/-- C8: for every factory-built vane, `base_unit_i` has an exactly zero Z
component, `base_unit_j` is exactly `(0, 0, 1)`, and their dot product is
exactly `0`. -/
theorem base_units_orthogonal (pt : Vec3) (angle : ℝ) :
    (vane pt angle).base_unit_i.z = 0 ∧
    (vane pt angle).base_unit_j = ⟨0, 0, 1⟩ ∧
    dot (vane pt angle).base_unit_i (vane pt angle).base_unit_j = 0 := by
  rw [vane_base_unit_i, vane_base_unit_j]
  refine ⟨rfl, rfl, ?_⟩
  simp [dot]

/-- C6: for every vane (hence for every spin value), the back-face normal
is the exact componentwise negation of the front-face normal. -/
theorem normal_back_eq_negate_front (v : Vane) :
    v.normal Face.Back = negate (v.normal Face.Front) := rfl

/-- C5: the border index list is exactly the three edges
`(3i, 3i+1), (3i+1, 3i+2), (3i+2, 3i)` of each of the 6 vanes, has
`6 * 6 = 36` entries, and every entry is `< 3 * 6 = 18`. -/
theorem borderIndices_spec :
    borderIndices =
      [0, 1, 1, 2, 2, 0,
       3, 4, 4, 5, 5, 3,
       6, 7, 7, 8, 8, 6,
       9, 10, 10, 11, 11, 9,
       12, 13, 13, 14, 14, 12,
       15, 16, 16, 17, 17, 15] ∧
    borderIndices.length = 6 * 6 ∧
    borderIndices.all (fun x => decide (x < 3 * 6)) = true := by
  refine ⟨by decide, by decide, by decide⟩

end Windmill
